import Mathlib

set_option maxHeartbeats 1000000

/-
Shallow embedding of the Incremental Collector of this repository
(src/scrapers/selenium_scraper_ver4.py, class EnhancedTwitterScraper) and
proofs about the claims of its specification.

The rendering surface (the Selenium driver) is modelled as a function from
pass index to the list of tweet cards currently visible; each card exposes
exactly the attributes the Python code reads (time element with datetime and
permalink href, User-Name text, tweetText, aria-labels of the three
engagement buttons and of the analytics anchor).  Absent elements and absent
attributes are Option-valued, mirroring NoSuchElementException /
get_attribute returning None.  Sleeps, progress bars and prints are dropped;
everything else follows the Python control flow line by line.
-/

/-! ## String helpers mirroring the Python string operations used -/

/-- ASCII lowercasing of one character, as Python str.lower does on the
ASCII range that engagement labels use. -/
def lowerChar (c : Char) : Char :=
  if 65 ≤ c.toNat ∧ c.toNat ≤ 90 then Char.ofNat (c.toNat + 32) else c

/-- Python label.lower(). -/
def pyLower (s : String) : String := ⟨s.data.map lowerChar⟩

/-- Python single-character membership test, as in `'k' in label`. -/
def containsChar (cs : List Char) (c : Char) : Bool := cs.any (fun d => d == c)

/-- Numeric value of a digit string read left to right, the way
int()/float() read a run of decimal digits. -/
def digitsToNat (ds : List Char) : Nat := ds.foldl (fun a c => a * 10 + (c.toNat - 48)) 0

/-- Python line.split, specialised to the separator used by the scraper
(user_elem.text.split of a newline): splits at every newline and keeps
empty pieces, so the empty string yields one empty piece. -/
def splitLines : List Char → List (List Char)
  | [] => [[]]
  | c :: rest =>
    let r := splitLines rest
    if c = '\n' then [] :: r
    else
      match r with
      | h :: t => (c :: h) :: t
      | [] => [[c]]

/-! ## The regex (one group of digits, an optional dot with more digits,
optional spaces, then a unit letter) used by get_count for the K/M branches.
The pattern is deterministic on its alphabet (digits are never the dot, a
space or the unit letter), so the backtracking search of re.findall reduces
to this greedy scanner; we model the leftmost match, i.e. nums[0]. -/

/-- One attempt of the pattern at the current position.  Returns the matched
mantissa as a numerator together with the number of fraction digits. -/
def tryMatchNum (unit : Char) (cs : List Char) : Option (Nat × Nat) :=
  let ds := cs.takeWhile Char.isDigit
  let rest := cs.dropWhile Char.isDigit
  if ds.isEmpty then none
  else
    let hasDot : Bool := rest.head? == some '.'
    let fr : List Char × List Char :=
      if hasDot then ((rest.drop 1).takeWhile Char.isDigit, (rest.drop 1).dropWhile Char.isDigit)
      else ([], rest)
    match fr.2.dropWhile Char.isWhitespace with
    | c :: _ => if c = unit then some (digitsToNat (ds ++ fr.1), fr.1.length) else none
    | [] => none

/-- Leftmost match of the pattern, scanning forward position by position as
re.findall does. -/
def findNumUnit (unit : Char) : List Char → Option (Nat × Nat)
  | [] => none
  | c :: rest =>
    match tryMatchNum unit (c :: rest) with
    | some v => some v
    | none => findNumUnit unit rest

/-- First maximal run of digits in the label, as taking element 0 of the
matches of a digits-only pattern. -/
def firstDigitRun : List Char → Option Nat
  | [] => none
  | c :: rest =>
    if c.isDigit then some (digitsToNat (c :: rest.takeWhile Char.isDigit))
    else firstDigitRun rest

/-! ## get_count (selenium_scraper_ver4.py lines 320-339) -/

/-- Body of get_count once a non-empty aria-label string is in hand: lower
it, take the K branch if it contains a k, else the M branch if it contains
an m, else the first plain digit run with commas removed.  The Python code
computes int(float(nums[0]) * 1000) resp. * 1000000; decimal arithmetic is
modelled exactly, so the result is the floor of mantissa times multiplier. -/
def parseCountLabel (label : String) : Nat :=
  let l := (pyLower label).data
  if containsChar l 'k' then
    match findNumUnit 'k' l with
    | some (n, s) => n * 1000 / 10 ^ s
    | none => 0
  else if containsChar l 'm' then
    match findNumUnit 'm' l with
    | some (n, s) => n * 1000000 / 10 ^ s
    | none => 0
  else
    match firstDigitRun (l.filter (fun c => c != ',')) with
    | some n => n
    | none => 0

/-- get_count: none models a missing button element (the try/except path) or
get_attribute returning None; an empty label fails the truthiness test.  All
of those return 0.  The same logic is used for the view count taken from the
analytics anchor. -/
def get_count (label : Option String) : Nat :=
  match label with
  | none => 0
  | some l => if l = "" then 0 else parseCountLabel l

/-! ## Data model -/

/-- The time element inside a rendered tweet card: its datetime attribute
and the href of its parent anchor (the permalink that the scraper uses as
the tweet's unique identifier).  Either attribute may be absent. -/
structure TimeInfo where
  datetime : Option String
  href : Option String
deriving DecidableEq, Repr

/-- One rendered tweet card, reduced to the attributes the scraper reads.
timeInfo is none when the card has no time element (the except path that
makes the card unextractable). -/
structure TweetElem where
  timeInfo : Option TimeInfo
  userNameText : Option String
  tweetText : Option String
  replyLabel : Option String
  retweetLabel : Option String
  likeLabel : Option String
  viewLabel : Option String
deriving DecidableEq, Repr

/-- The record dict built by extract_single_tweet. -/
structure TweetData where
  date : Option String
  username : String
  content : String
  reply_count : Nat
  retweet_count : Nat
  like_count : Nat
  view_count : Nat
  tweet_url : Option String
deriving DecidableEq, Repr

/-- Identifier type: the permalink href, absent when the attribute was
missing (Python would then carry None around). -/
abbrev TweetId := Option String

/-- Username parsing inside extract_single_tweet: split the User-Name text
at newlines, take piece 1 with all at-signs removed when there are at least
two pieces, else the literal unknown; a missing element also gives
unknown. -/
def parseUsername (userNameText : Option String) : String :=
  match userNameText with
  | none => "unknown"
  | some t =>
    let parts := splitLines t.data
    if 1 < parts.length then ⟨(parts.getD 1 []).filter (fun c => c != '@')⟩
    else "unknown"

/-! ## extract_single_tweet (lines 285-380)

The clicking of a Show-more button in expand_tweet_text only changes what
the rendered text node holds; the model takes tweetText to be that final
text, with none for the except path that returns the empty string. -/

/-- extract_single_tweet.  The first argument is the session's
collected_tweet_ids set; the result is the updated set and the extracted
record, none when the time element is missing or the permalink is already
in the set.  On success the permalink is added to the set (mark as
collected) before the record is handed back. -/
def extract_single_tweet (ids : Finset TweetId) (e : TweetElem) :
    Finset TweetId × Option TweetData :=
  match e.timeInfo with
  | none => (ids, none)
  | some ti =>
    if ti.href ∈ ids then (ids, none)
    else
      (insert ti.href ids,
       some { date := ti.datetime
              username := parseUsername e.userNameText
              content := e.tweetText.getD ""
              reply_count := get_count e.replyLabel
              retweet_count := get_count e.retweetLabel
              like_count := get_count e.likeLabel
              view_count := get_count e.viewLabel
              tweet_url := ti.href })

/-! ## Collection session state and the collector loop
(smart_scroll_and_collect, lines 382-453) -/

/-- The session state mutated by the scraper: the set of already captured
identifiers and the ordered list of captured records. -/
structure ScraperState where
  collected_tweet_ids : Finset TweetId
  collected_tweets_data : List TweetData
deriving DecidableEq

/-- State after the reset done by scrape_by_username / scrape_by_search
before a session starts. -/
def emptyState : ScraperState := ⟨∅, []⟩

/-- The Python guard `filter_username and username.lower() != filter_username.lower()`:
an absent or empty filter string is falsy and rejects nothing. -/
def filterRejects (filterUsername : Option String) (username : String) : Bool :=
  match filterUsername with
  | none => false
  | some fu => fu != "" && pyLower username != pyLower fu

/-- The per-pass for-loop over the visible tweet cards (lines 408-420):
break once the target count is reached, extract each card, skip extraction
failures silently, skip records rejected by the username filter (their
identifier has nevertheless already been added to the set by
extract_single_tweet), append everything else. -/
def processItems (maxTweets : Nat) (filterUsername : Option String) :
    ScraperState → List TweetElem → ScraperState
  | st, [] => st
  | st, e :: rest =>
    if maxTweets ≤ st.collected_tweets_data.length then st
    else
      match extract_single_tweet st.collected_tweet_ids e with
      | (ids2, none) => processItems maxTweets filterUsername ⟨ids2, st.collected_tweets_data⟩ rest
      | (ids2, some td) =>
        if filterRejects filterUsername td.username then
          processItems maxTweets filterUsername ⟨ids2, st.collected_tweets_data⟩ rest
        else
          processItems maxTweets filterUsername ⟨ids2, st.collected_tweets_data ++ [td]⟩ rest

/-- Terminal outcomes of the collector loop.  The spec names the three
distinct exit paths of the while loop: target count reached (second
conjunct of the loop condition fails), stall break after three passes with
no new records (the early break that prints a warning), and the scroll
budget running out (first conjunct fails). -/
inductive Outcome where
  | targetReached
  | exhaustedFeed
  | passLimitReached
deriving DecidableEq, Repr

/-- The while loop of smart_scroll_and_collect.  fuel is
max_scrolls - scrolls, so the surface is enumerated at pass index
maxScrolls - fuel; noNewCount and lastCount are no_new_tweets_count and
last_collected_count.  The stall limit is the literal 3 of line 430. -/
def collectLoopAux (surface : Nat → List TweetElem) (maxTweets maxScrolls : Nat)
    (filterUsername : Option String) :
    Nat → Nat → Nat → ScraperState → ScraperState × Outcome
  | 0, _, _, st => (st, Outcome.passLimitReached)
  | fuel + 1, noNewCount, lastCount, st =>
    if st.collected_tweets_data.length < maxTweets then
      let st2 := processItems maxTweets filterUsername st (surface (maxScrolls - (fuel + 1)))
      let current := st2.collected_tweets_data.length
      let noNew2 := if current = lastCount then noNewCount + 1 else 0
      if 3 ≤ noNew2 then (st2, Outcome.exhaustedFeed)
      else collectLoopAux surface maxTweets maxScrolls filterUsername fuel noNew2 current st2
    else (st, Outcome.targetReached)

/-- smart_scroll_and_collect: run the loop with scrolls, no_new_tweets_count
and last_collected_count all zero.  The Python method returns only the
length of collected_tweets_data; the records live in the session state, so
the model returns the final state together with the exit path taken. -/
def smart_scroll_and_collect (surface : Nat → List TweetElem) (maxTweets maxScrolls : Nat)
    (filterUsername : Option String) (st : ScraperState) : ScraperState × Outcome :=
  collectLoopAux surface maxTweets maxScrolls filterUsername maxScrolls 0 0 st

/-! ## The exception channel of the driver calls, and scrape_by_username
(lines 455-545).  find_elements inside the collection loop has no local
handler, so a surface error during a pass propagates out of
smart_scroll_and_collect; the catch-all except of scrape_by_username then
turns it into an empty result. -/

/-- The collector loop with the exception channel of the per-pass
find_elements call made explicit: an error at any pass aborts the loop. -/
def collectLoopAuxE (surface : Nat → Except Unit (List TweetElem)) (maxTweets maxScrolls : Nat)
    (filterUsername : Option String) :
    Nat → Nat → Nat → ScraperState → Except Unit (ScraperState × Outcome)
  | 0, _, _, st => Except.ok (st, Outcome.passLimitReached)
  | fuel + 1, noNewCount, lastCount, st =>
    if st.collected_tweets_data.length < maxTweets then
      match surface (maxScrolls - (fuel + 1)) with
      | Except.error err => Except.error err
      | Except.ok items =>
        let st2 := processItems maxTweets filterUsername st items
        let current := st2.collected_tweets_data.length
        let noNew2 := if current = lastCount then noNewCount + 1 else 0
        if 3 ≤ noNew2 then Except.ok (st2, Outcome.exhaustedFeed)
        else collectLoopAuxE surface maxTweets maxScrolls filterUsername fuel noNew2 current st2
    else Except.ok (st, Outcome.targetReached)

/-- Python username.replace of the at-sign with nothing. -/
def stripAtSigns (s : String) : String := ⟨s.data.filter (fun c => c != '@')⟩

/-- What scrape_by_username observes of the rendering surface: whether
navigating to the profile raises, whether a login wall is detected, whether
it is still there after the refresh that tries to bypass it, and the
per-pass enumerations (each of which may raise). -/
structure ProfileSurface where
  navFails : Bool
  loginWall : Bool
  loginWallAfterRefresh : Bool
  passes : Nat → Except Unit (List TweetElem)

/-- The tail of scrape_by_username once the page checks have passed: run the
collector from a freshly reset session state; the enclosing try/except turns
any exception raised during collection into an empty result (the empty
DataFrame of the except branch), discarding whatever was collected. -/
def collectOrEmpty (passes : Nat → Except Unit (List TweetElem)) (filterUsername : Option String)
    (maxTweets maxScrolls : Nat) : List TweetData :=
  match collectLoopAuxE passes maxTweets maxScrolls filterUsername maxScrolls 0 0 emptyState with
  | Except.error _ => []
  | Except.ok (st, _) => st.collected_tweets_data

/-- scrape_by_username: reset the session, refuse to run when neither logged
in nor allowed to go without login, abort with an empty result when
navigation raises or the login wall cannot be bypassed, otherwise collect
with the profile's username as filter.  The DataFrame post-processing
(total_engagement column, date sort, CSV write) is outside the modelled
boundary; the model returns the collected records. -/
def scrape_by_username (s : ProfileSurface) (loggedIn allowNoLogin : Bool)
    (username : String) (maxTweets maxScrolls : Nat) : List TweetData :=
  if !loggedIn && !allowNoLogin then []
  else if s.navFails then []
  else if s.loginWall then
    if allowNoLogin then
      if s.loginWallAfterRefresh then []
      else collectOrEmpty s.passes (some (stripAtSigns username)) maxTweets maxScrolls
    else []
  else collectOrEmpty s.passes (some (stripAtSigns username)) maxTweets maxScrolls

/-! ## Sub-thread traversal: scrape_tweet_replies (lines 547-667) and
scrape_tweet_quotes (lines 669-783).  Both keep a local temp set and list,
and around each per-item extraction they copy the session's
collected_tweet_ids, replace it by an empty set, and restore the copy, so
the model passes the empty set to extract_single_tweet, discards the set it
returns, and keeps threading the caller's set unchanged. -/

/-- Per-item body of the replies loop: items without a time element are
skipped, the original tweet (identifier equal to the parent URL) and
duplicates are skipped, everything else is extracted against an empty
identifier set and annotated with the parent URL.  Returns the temp set,
the replies collected so far, and the session identifier set. -/
def repliesProcessItems (parentUrl : String) (maxReplies : Nat) :
    List TweetElem → Finset TweetId → List (TweetData × String) → Finset TweetId →
    Finset TweetId × List (TweetData × String) × Finset TweetId
  | [], temp, acc, ids => (temp, acc, ids)
  | e :: rest, temp, acc, ids =>
    if maxReplies ≤ acc.length then (temp, acc, ids)
    else
      match e.timeInfo with
      | none => repliesProcessItems parentUrl maxReplies rest temp acc ids
      | some ti =>
        if ti.href = some parentUrl ∨ ti.href ∈ temp then
          repliesProcessItems parentUrl maxReplies rest temp acc ids
        else
          match (extract_single_tweet ∅ e).2 with
          | some r =>
            repliesProcessItems parentUrl maxReplies rest (insert ti.href temp)
              (acc ++ [(r, parentUrl)]) ids
          | none =>
            repliesProcessItems parentUrl maxReplies rest (insert ti.href temp) acc ids

/-- The while loop of scrape_tweet_replies, same scroll/stall shape as the
main collector. -/
def repliesLoopAux (surface : Nat → List TweetElem) (parentUrl : String)
    (maxReplies maxScrolls : Nat) :
    Nat → Nat → Nat → Finset TweetId → List (TweetData × String) → Finset TweetId →
    List (TweetData × String) × Finset TweetId
  | 0, _, _, _, acc, ids => (acc, ids)
  | fuel + 1, noNewCount, lastCount, temp, acc, ids =>
    if acc.length < maxReplies then
      match repliesProcessItems parentUrl maxReplies (surface (maxScrolls - (fuel + 1))) temp acc ids with
      | (temp2, acc2, ids2) =>
        let noNew2 := if acc2.length = lastCount then noNewCount + 1 else 0
        if 3 ≤ noNew2 then (acc2, ids2)
        else repliesLoopAux surface parentUrl maxReplies maxScrolls fuel noNew2 acc2.length temp2 acc2 ids2
    else (acc, ids)

/-- scrape_tweet_replies: collect annotated replies for one parent tweet,
threading the session's collected_tweet_ids through.  Navigation back to the
original page is a browser side effect outside the model. -/
def scrape_tweet_replies (surface : Nat → List TweetElem) (tweetUrl : String)
    (maxReplies maxScrolls : Nat) (ids : Finset TweetId) :
    List (TweetData × String) × Finset TweetId :=
  repliesLoopAux surface tweetUrl maxReplies maxScrolls maxScrolls 0 0 ∅ [] ids

/-- Per-item body of the quotes loop: identical to the replies one except
that the guard only skips duplicates — there is no comparison of the item's
identifier with the parent URL. -/
def quotesProcessItems (parentUrl : String) (maxQuotes : Nat) :
    List TweetElem → Finset TweetId → List (TweetData × String) → Finset TweetId →
    Finset TweetId × List (TweetData × String) × Finset TweetId
  | [], temp, acc, ids => (temp, acc, ids)
  | e :: rest, temp, acc, ids =>
    if maxQuotes ≤ acc.length then (temp, acc, ids)
    else
      match e.timeInfo with
      | none => quotesProcessItems parentUrl maxQuotes rest temp acc ids
      | some ti =>
        if ti.href ∈ temp then
          quotesProcessItems parentUrl maxQuotes rest temp acc ids
        else
          match (extract_single_tweet ∅ e).2 with
          | some r =>
            quotesProcessItems parentUrl maxQuotes rest (insert ti.href temp)
              (acc ++ [(r, parentUrl)]) ids
          | none =>
            quotesProcessItems parentUrl maxQuotes rest (insert ti.href temp) acc ids

/-- The while loop of scrape_tweet_quotes. -/
def quotesLoopAux (surface : Nat → List TweetElem) (parentUrl : String)
    (maxQuotes maxScrolls : Nat) :
    Nat → Nat → Nat → Finset TweetId → List (TweetData × String) → Finset TweetId →
    List (TweetData × String) × Finset TweetId
  | 0, _, _, _, acc, ids => (acc, ids)
  | fuel + 1, noNewCount, lastCount, temp, acc, ids =>
    if acc.length < maxQuotes then
      match quotesProcessItems parentUrl maxQuotes (surface (maxScrolls - (fuel + 1))) temp acc ids with
      | (temp2, acc2, ids2) =>
        let noNew2 := if acc2.length = lastCount then noNewCount + 1 else 0
        if 3 ≤ noNew2 then (acc2, ids2)
        else quotesLoopAux surface parentUrl maxQuotes maxScrolls fuel noNew2 acc2.length temp2 acc2 ids2
    else (acc, ids)

/-- scrape_tweet_quotes: collect annotated quote records for one parent
tweet from its quotes page. -/
def scrape_tweet_quotes (surface : Nat → List TweetElem) (tweetUrl : String)
    (maxQuotes maxScrolls : Nat) (ids : Finset TweetId) :
    List (TweetData × String) × Finset TweetId :=
  quotesLoopAux surface tweetUrl maxQuotes maxScrolls maxScrolls 0 0 ∅ [] ids

/-! ## Concrete cards and surfaces used to evaluate the model -/

/-- The ten decimal digit characters (what the regex digit class matches on
the labels in question). -/
def decimalDigits : List Char := ['0', '1', '2', '3', '4', '5', '6', '7', '8', '9']

/-- A minimal rendered card: time element with a datetime and a permalink,
all other attributes absent. -/
def mkCard (dt url : String) : TweetElem :=
  ⟨some ⟨some dt, some url⟩, none, none, none, none, none, none⟩

/-- Two overlapping passes: the first shows items A and B, the second shows
B and C again after scrolling, later passes show nothing. -/
def overlapSurface : Nat → List TweetElem :=
  fun i =>
    if i = 0 then [mkCard "t1" "A", mkCard "t1" "B"]
    else if i = 1 then [mkCard "t2" "B", mkCard "t2" "C"]
    else []

/-- A card with no time element at all: unextractable. -/
def noTimeCard : TweetElem := ⟨none, none, none, none, none, none, none⟩

/-- A surface that keeps showing one unextractable card on every pass. -/
def noTimeSurface : Nat → List TweetElem := fun _ => [noTimeCard]

/-- A card whose permalink is the string u. -/
def dupCard : TweetElem := mkCard "t" "u"

/-- A fresh card with permalink w. -/
def freshCard : TweetElem := mkCard "t" "w"

/-- A card authored by bob (User-Name text renders display name, newline,
handle). -/
def bobCard : TweetElem :=
  ⟨some ⟨some "t", some "B"⟩, some "Bob Smith\n@bob", none, none, none, none, none⟩

/-- A surface showing only bob's card. -/
def bobSurface : Nat → List TweetElem := fun _ => [bobCard]

/-- A card authored by the profile owner user. -/
def userCard : TweetElem :=
  ⟨some ⟨some "t", some "A"⟩, some "User Name\n@user", none, none, none, none, none⟩

/-- A profile whose first pass renders userCard and whose second pass
raises (a transient surface error mid-collection). -/
def errProfile : ProfileSurface :=
  ⟨false, false, false, fun i => if i = 0 then Except.ok [userCard] else Except.error ()⟩

/-- The same profile with the failing passes replaced by empty
enumerations. -/
def okProfile : ProfileSurface :=
  ⟨false, false, false, fun i => if i = 0 then Except.ok [userCard] else Except.ok []⟩

/-- A profile whose initial navigation fails. -/
def navFailProfile : ProfileSurface := ⟨true, false, false, fun _ => Except.ok []⟩

/-- The record extracted from userCard. -/
def userRecord : TweetData := ⟨some "t", "user", "", 0, 0, 0, 0, some "A"⟩

/-- A card whose permalink is the parent URL P. -/
def parentCard : TweetElem := mkCard "t" "P"

/-- A quotes page that keeps showing the parent item itself. -/
def parentSurface : Nat → List TweetElem := fun _ => [parentCard]

/-- A card with permalink R, distinct from the parent P. -/
def replyCard : TweetElem := mkCard "t" "R"

/-- A replies page showing one genuine reply. -/
def replySurface : Nat → List TweetElem := fun _ => [replyCard]

/-- The record extracted from replyCard. -/
def replyRecord : TweetData := ⟨some "t", "unknown", "", 0, 0, 0, 0, some "R"⟩

/-! ## Basic lemmas about extraction -/

/-- Unfolding equation for the per-pass item loop on a cons cell. -/
theorem processItems_cons (mt : Nat) (f : Option String) (st : ScraperState)
    (e : TweetElem) (rest : List TweetElem) :
    processItems mt f st (e :: rest) =
      if mt ≤ st.collected_tweets_data.length then st
      else
        match extract_single_tweet st.collected_tweet_ids e with
        | (ids2, none) => processItems mt f ⟨ids2, st.collected_tweets_data⟩ rest
        | (ids2, some td) =>
          if filterRejects f td.username then
            processItems mt f ⟨ids2, st.collected_tweets_data⟩ rest
          else processItems mt f ⟨ids2, st.collected_tweets_data ++ [td]⟩ rest := rfl

/-- A failed extraction leaves the identifier set unchanged. -/
theorem extract_fst_of_none {ids : Finset TweetId} {e : TweetElem}
    (h : (extract_single_tweet ids e).2 = none) :
    (extract_single_tweet ids e).1 = ids := by
  rcases he : e.timeInfo with _ | ti
  · simp [extract_single_tweet, he]
  · by_cases hm : ti.href ∈ ids
    · simp [extract_single_tweet, he, hm]
    · simp [extract_single_tweet, he, hm] at h

/-- Unfolding equation of extraction on a fresh identifier. -/
theorem extract_not_mem {ids : Finset TweetId} {e : TweetElem} {ti : TimeInfo}
    (hti : e.timeInfo = some ti) (hm : ti.href ∉ ids) :
    extract_single_tweet ids e =
      (insert ti.href ids,
       some { date := ti.datetime
              username := parseUsername e.userNameText
              content := e.tweetText.getD ""
              reply_count := get_count e.replyLabel
              retweet_count := get_count e.retweetLabel
              like_count := get_count e.likeLabel
              view_count := get_count e.viewLabel
              tweet_url := ti.href }) := by
  simp [extract_single_tweet, hti, hm]

/-- A successful extraction returns a record whose identifier was not yet
collected, and inserts exactly that identifier into the set. -/
theorem extract_snd_some {ids : Finset TweetId} {e : TweetElem} {r : TweetData}
    (h : (extract_single_tweet ids e).2 = some r) :
    r.tweet_url ∉ ids ∧ (extract_single_tweet ids e).1 = insert r.tweet_url ids := by
  rcases he : e.timeInfo with _ | ti
  · simp [extract_single_tweet, he] at h
  · by_cases hm : ti.href ∈ ids
    · simp [extract_single_tweet, he, hm] at h
    · rw [extract_not_mem he hm] at h ⊢
      simp only [Option.some.injEq] at h
      subst h
      exact ⟨hm, rfl⟩

/-- The identifier of a successfully extracted record is the href of the
card's time-element anchor. -/
theorem extract_url_eq {ids : Finset TweetId} {e : TweetElem} {ti : TimeInfo} {r : TweetData}
    (hti : e.timeInfo = some ti) (h : (extract_single_tweet ids e).2 = some r) :
    r.tweet_url = ti.href := by
  by_cases hm : ti.href ∈ ids
  · simp [extract_single_tweet, hti, hm] at h
  · rw [extract_not_mem hti hm] at h
    simp only [Option.some.injEq] at h
    subst h
    rfl

/-- A card without a time element never extracts. -/
theorem extract_of_timeInfo_none {ids : Finset TweetId} {e : TweetElem}
    (h : e.timeInfo = none) : extract_single_tweet ids e = (ids, none) := by
  simp [extract_single_tweet, h]

/-! ## Per-pass lemmas -/

/-- A pass never pushes the record list beyond the target count. -/
theorem processItems_len_le (mt : Nat) (f : Option String) :
    ∀ (items : List TweetElem) (st : ScraperState),
      st.collected_tweets_data.length ≤ mt →
      (processItems mt f st items).collected_tweets_data.length ≤ mt := by
  intro items
  induction items with
  | nil => intro st h; simpa [processItems] using h
  | cons e rest ih =>
    intro st h
    rw [processItems_cons]
    by_cases hle : mt ≤ st.collected_tweets_data.length
    · rw [if_pos hle]; exact h
    · rw [if_neg hle]
      split
      · exact ih _ (by simpa using h)
      · split
        · exact ih _ (by simpa using h)
        · refine ih _ ?_
          simp only [List.length_append, List.length_singleton]
          omega

/-- A pass adds at most one record per visible item. -/
theorem processItems_len_growth (mt : Nat) (f : Option String) :
    ∀ (items : List TweetElem) (st : ScraperState),
      (processItems mt f st items).collected_tweets_data.length
        ≤ st.collected_tweets_data.length + items.length := by
  intro items
  induction items with
  | nil => intro st; simp [processItems]
  | cons e rest ih =>
    intro st
    rw [processItems_cons]
    by_cases hle : mt ≤ st.collected_tweets_data.length
    · rw [if_pos hle]; simp
    · rw [if_neg hle]
      split
      · rename_i ids2 heq
        have := ih ⟨ids2, st.collected_tweets_data⟩
        dsimp only at this
        simp only [List.length_cons]
        omega
      · rename_i ids2 td heq
        split
        · have := ih ⟨ids2, st.collected_tweets_data⟩
          dsimp only at this
          simp only [List.length_cons]
          omega
        · have := ih ⟨ids2, st.collected_tweets_data ++ [td]⟩
          dsimp only at this
          simp only [List.length_append, List.length_singleton] at this
          simp only [List.length_cons]
          omega

/-- A pass only ever appends to the record list. -/
theorem processItems_data_prefix (mt : Nat) (f : Option String) :
    ∀ (items : List TweetElem) (st : ScraperState),
      ∃ l, (processItems mt f st items).collected_tweets_data
        = st.collected_tweets_data ++ l := by
  intro items
  induction items with
  | nil => intro st; exact ⟨[], by simp [processItems]⟩
  | cons e rest ih =>
    intro st
    rw [processItems_cons]
    by_cases hle : mt ≤ st.collected_tweets_data.length
    · rw [if_pos hle]; exact ⟨[], by simp⟩
    · rw [if_neg hle]
      split
      · rename_i ids2 heq
        exact ih ⟨ids2, st.collected_tweets_data⟩
      · rename_i ids2 td heq
        split
        · exact ih ⟨ids2, st.collected_tweets_data⟩
        · obtain ⟨l, hl⟩ := ih ⟨ids2, st.collected_tweets_data ++ [td]⟩
          exact ⟨td :: l, by simpa using hl⟩

/-- A pass whose visible items all lack a time element (are identifier-less)
changes nothing: such items are skipped silently. -/
theorem processItems_timeNone (mt : Nat) (f : Option String) :
    ∀ (items : List TweetElem) (st : ScraperState),
      (∀ e ∈ items, e.timeInfo = none) →
      processItems mt f st items = st := by
  intro items
  induction items with
  | nil => intro st _; rfl
  | cons e rest ih =>
    intro st h
    rw [processItems_cons]
    by_cases hle : mt ≤ st.collected_tweets_data.length
    · rw [if_pos hle]
    · rw [if_neg hle]
      have hx : extract_single_tweet st.collected_tweet_ids e
          = (st.collected_tweet_ids, none) :=
        extract_of_timeInfo_none (h e (by simp))
      rw [hx]
      show processItems mt f st rest = st
      exact ih st (fun x hx2 => h x (by simp [hx2]))

/-- Nodup-and-membership invariant of a pass: if the identifiers of the
captured records are pairwise distinct and all captured identifiers are in
the captured set, the same holds after processing the visible items. -/
theorem processItems_nodup (mt : Nat) (f : Option String) :
    ∀ (items : List TweetElem) (st : ScraperState),
      ((st.collected_tweets_data.map (fun d => d.tweet_url)).Nodup ∧
        ∀ d ∈ st.collected_tweets_data, d.tweet_url ∈ st.collected_tweet_ids) →
      ((processItems mt f st items).collected_tweets_data.map (fun d => d.tweet_url)).Nodup ∧
        ∀ d ∈ (processItems mt f st items).collected_tweets_data,
          d.tweet_url ∈ (processItems mt f st items).collected_tweet_ids := by
  intro items
  induction items with
  | nil => intro st h; simpa [processItems] using h
  | cons e rest ih =>
    intro st h
    rw [processItems_cons]
    by_cases hle : mt ≤ st.collected_tweets_data.length
    · rw [if_pos hle]; exact h
    · rw [if_neg hle]
      split
      · rename_i ids2 heq
        refine ih ⟨ids2, st.collected_tweets_data⟩ ⟨h.1, ?_⟩
        have hfst : ids2 = st.collected_tweet_ids := by
          have := @extract_fst_of_none st.collected_tweet_ids e (by rw [heq])
          rw [heq] at this
          exact this
        intro d hd
        rw [hfst]
        exact h.2 d hd
      · rename_i ids2 td heq
        have hsp := @extract_snd_some st.collected_tweet_ids e td (by rw [heq])
        rw [heq] at hsp
        obtain ⟨hnotmem, hins⟩ := hsp
        dsimp only at hins
        split
        · refine ih ⟨ids2, st.collected_tweets_data⟩ ⟨h.1, ?_⟩
          intro d hd
          dsimp only at hd ⊢
          rw [hins]
          exact Finset.mem_insert_of_mem (h.2 d hd)
        · refine ih ⟨ids2, st.collected_tweets_data ++ [td]⟩ ⟨?_, ?_⟩
          · rw [List.map_append, List.nodup_append]
            refine ⟨h.1, by simp, ?_⟩
            intro u hu hu2
            simp only [List.map_cons, List.map_nil, List.mem_cons,
              List.not_mem_nil, or_false] at hu2
            subst hu2
            obtain ⟨d, hd, hdu⟩ := List.mem_map.1 hu
            exact hnotmem (hdu ▸ h.2 d hd)
          · intro d hd
            dsimp only at hd ⊢
            rw [hins]
            rcases List.mem_append.1 hd with hd | hd
            · exact Finset.mem_insert_of_mem (h.2 d hd)
            · simp only [List.mem_singleton] at hd
              subst hd
              exact Finset.mem_insert_self _ _

/-- With no username filter, a pass keeps list length and set size equal:
every successful extraction both inserts a fresh identifier and appends the
record. -/
theorem processItems_card_eq (mt : Nat) :
    ∀ (items : List TweetElem) (st : ScraperState),
      st.collected_tweets_data.length = st.collected_tweet_ids.card →
      (processItems mt none st items).collected_tweets_data.length
        = (processItems mt none st items).collected_tweet_ids.card := by
  intro items
  induction items with
  | nil => intro st h; simpa [processItems] using h
  | cons e rest ih =>
    intro st h
    rw [processItems_cons]
    by_cases hle : mt ≤ st.collected_tweets_data.length
    · rw [if_pos hle]; exact h
    · rw [if_neg hle]
      split
      · rename_i ids2 heq
        have hfst : ids2 = st.collected_tweet_ids := by
          have := @extract_fst_of_none st.collected_tweet_ids e (by rw [heq])
          rw [heq] at this
          exact this
        exact ih ⟨ids2, st.collected_tweets_data⟩ (by dsimp only; rw [hfst]; exact h)
      · rename_i ids2 td heq
        have hsp := @extract_snd_some st.collected_tweet_ids e td (by rw [heq])
        rw [heq] at hsp
        obtain ⟨hnotmem, hins⟩ := hsp
        dsimp only at hins
        have hrej : filterRejects none td.username = false := rfl
        rw [hrej]
        simp only [Bool.false_eq_true, if_false]
        refine ih ⟨ids2, st.collected_tweets_data ++ [td]⟩ ?_
        dsimp only
        rw [hins, List.length_append, List.length_singleton,
          Finset.card_insert_of_not_mem hnotmem, h]

/-- With an arbitrary username filter, a pass can only make the list fall
behind the set (a rejected record's identifier is still inserted), never
overtake it. -/
theorem processItems_len_le_card (mt : Nat) (f : Option String) :
    ∀ (items : List TweetElem) (st : ScraperState),
      st.collected_tweets_data.length ≤ st.collected_tweet_ids.card →
      (processItems mt f st items).collected_tweets_data.length
        ≤ (processItems mt f st items).collected_tweet_ids.card := by
  intro items
  induction items with
  | nil => intro st h; simpa [processItems] using h
  | cons e rest ih =>
    intro st h
    rw [processItems_cons]
    by_cases hle : mt ≤ st.collected_tweets_data.length
    · rw [if_pos hle]; exact h
    · rw [if_neg hle]
      split
      · rename_i ids2 heq
        have hfst : ids2 = st.collected_tweet_ids := by
          have := @extract_fst_of_none st.collected_tweet_ids e (by rw [heq])
          rw [heq] at this
          exact this
        exact ih ⟨ids2, st.collected_tweets_data⟩ (by dsimp only; rw [hfst]; exact h)
      · rename_i ids2 td heq
        have hsp := @extract_snd_some st.collected_tweet_ids e td (by rw [heq])
        rw [heq] at hsp
        obtain ⟨hnotmem, hins⟩ := hsp
        dsimp only at hins
        split
        · refine ih ⟨ids2, st.collected_tweets_data⟩ ?_
          dsimp only
          rw [hins, Finset.card_insert_of_not_mem hnotmem]
          omega
        · refine ih ⟨ids2, st.collected_tweets_data ++ [td]⟩ ?_
          dsimp only
          rw [hins, List.length_append, List.length_singleton,
            Finset.card_insert_of_not_mem hnotmem]
          omega

/-! ## Loop-level lemmas -/

/-- The loop never pushes the record list beyond the target count. -/
theorem collectLoopAux_len_le (surface : Nat → List TweetElem) (mt ms : Nat)
    (f : Option String) :
    ∀ (fuel noNew last : Nat) (st : ScraperState),
      st.collected_tweets_data.length ≤ mt →
      ((collectLoopAux surface mt ms f fuel noNew last st).1).collected_tweets_data.length
        ≤ mt := by
  intro fuel
  induction fuel with
  | zero => intro noNew last st h; simpa [collectLoopAux] using h
  | succ fuel ih =>
    intro noNew last st h
    simp only [collectLoopAux]
    split
    · split
      · split
        · exact processItems_len_le mt f _ st h
        · exact ih _ _ _ (processItems_len_le mt f _ st h)
      · rw [if_neg (by norm_num : ¬ (3:Nat) ≤ 0)]
        exact ih _ _ _ (processItems_len_le mt f _ st h)
    · exact h

/-- Sanity bound: with at most B items visible per pass, the loop adds at
most fuel * B records. -/
theorem collectLoopAux_len_bound (surface : Nat → List TweetElem) (mt ms : Nat)
    (f : Option String) (B : Nat) (hB : ∀ i, (surface i).length ≤ B) :
    ∀ (fuel noNew last : Nat) (st : ScraperState),
      ((collectLoopAux surface mt ms f fuel noNew last st).1).collected_tweets_data.length
        ≤ st.collected_tweets_data.length + fuel * B := by
  intro fuel
  induction fuel with
  | zero => intro noNew last st; simp [collectLoopAux]
  | succ fuel ih =>
    intro noNew last st
    have hgrow : (processItems mt f st (surface (ms - (fuel + 1)))).collected_tweets_data.length
        ≤ st.collected_tweets_data.length + B :=
      (processItems_len_growth mt f _ st).trans (Nat.add_le_add_left (hB _) _)
    have hone : st.collected_tweets_data.length + B
        ≤ st.collected_tweets_data.length + (fuel + 1) * B := by
      refine Nat.add_le_add_left ?_ _
      calc B = 1 * B := (Nat.one_mul B).symm
        _ ≤ (fuel + 1) * B := Nat.mul_le_mul_right B (by omega)
    have hrec : ∀ n l,
        ((collectLoopAux surface mt ms f fuel n l
            (processItems mt f st (surface (ms - (fuel + 1))))).1).collected_tweets_data.length
          ≤ st.collected_tweets_data.length + (fuel + 1) * B := by
      intro n l
      calc ((collectLoopAux surface mt ms f fuel n l _).1).collected_tweets_data.length
          ≤ (processItems mt f st (surface (ms - (fuel + 1)))).collected_tweets_data.length
              + fuel * B := ih n l _
        _ ≤ (st.collected_tweets_data.length + B) + fuel * B := Nat.add_le_add_right hgrow _
        _ = st.collected_tweets_data.length + (B + fuel * B) := Nat.add_assoc _ _ _
        _ = st.collected_tweets_data.length + (fuel + 1) * B := by ring_nf
    simp only [collectLoopAux]
    split
    · split
      · split
        · exact hgrow.trans hone
        · exact hrec _ _
      · rw [if_neg (by norm_num : ¬ (3:Nat) ≤ 0)]
        exact hrec _ _
    · exact Nat.le_add_right _ _

/-- The loop preserves distinctness of the captured identifiers together
with their membership in the captured set. -/
theorem collectLoopAux_nodup (surface : Nat → List TweetElem) (mt ms : Nat)
    (f : Option String) :
    ∀ (fuel noNew last : Nat) (st : ScraperState),
      ((st.collected_tweets_data.map (fun d => d.tweet_url)).Nodup ∧
        ∀ d ∈ st.collected_tweets_data, d.tweet_url ∈ st.collected_tweet_ids) →
      ((((collectLoopAux surface mt ms f fuel noNew last st).1).collected_tweets_data.map
          (fun d => d.tweet_url)).Nodup ∧
        ∀ d ∈ ((collectLoopAux surface mt ms f fuel noNew last st).1).collected_tweets_data,
          d.tweet_url ∈ ((collectLoopAux surface mt ms f fuel noNew last st).1).collected_tweet_ids) := by
  intro fuel
  induction fuel with
  | zero => intro noNew last st h; simpa [collectLoopAux] using h
  | succ fuel ih =>
    intro noNew last st h
    simp only [collectLoopAux]
    split
    · split
      · split
        · exact processItems_nodup mt f _ st h
        · exact ih _ _ _ (processItems_nodup mt f _ st h)
      · rw [if_neg (by norm_num : ¬ (3:Nat) ≤ 0)]
        exact ih _ _ _ (processItems_nodup mt f _ st h)
    · exact h

/-! ## Lemmas about the label scanner -/

/-- Unfolding the data field of a string literal built from a char list. -/
theorem data_mk (cs : List Char) : (String.mk cs).data = cs := rfl

/-- A function that fixes every element of a list maps the list to
itself. -/
theorem list_map_self {α : Type} (f : α → α) :
    ∀ l : List α, (∀ a ∈ l, f a = a) → l.map f = l := by
  intro l
  induction l with
  | nil => intro _; rfl
  | cons a l ih =>
    intro h
    simp only [List.map_cons]
    rw [h a (by simp), ih (fun x hx => h x (by simp [hx]))]

/-- takeWhile and dropWhile on an all-satisfying prefix followed by a
failing element. -/
theorem takeWhile_all_append (p : Char → Bool) :
    ∀ (ds : List Char) (x : Char) (r : List Char),
      (∀ c ∈ ds, p c = true) → p x = false →
      ((ds ++ x :: r).takeWhile p = ds ∧ (ds ++ x :: r).dropWhile p = x :: r) := by
  intro ds
  induction ds with
  | nil =>
    intro x r _ hx
    constructor
    · simp [List.takeWhile_cons, hx]
    · simp [List.dropWhile_cons, hx]
  | cons d ds ih =>
    intro x r h hx
    have hd : p d = true := h d (by simp)
    have hrest := ih x r (fun c hc => h c (by simp [hc])) hx
    constructor
    · simp [List.takeWhile_cons, hd, hrest.1]
    · simp [List.dropWhile_cons, hd, hrest.2]

/-- Members of the decimal digit list are digits. -/
theorem isDigit_of_mem_decimalDigits {c : Char} (h : c ∈ decimalDigits) :
    Char.isDigit c = true := by
  simp only [decimalDigits, List.mem_cons, List.not_mem_nil, or_false] at h
  rcases h with rfl | rfl | rfl | rfl | rfl | rfl | rfl | rfl | rfl | rfl <;> decide

/-- Lowercasing fixes digits. -/
theorem lowerChar_of_mem_decimalDigits {c : Char} (h : c ∈ decimalDigits) :
    lowerChar c = c := by
  simp only [decimalDigits, List.mem_cons, List.not_mem_nil, or_false] at h
  rcases h with rfl | rfl | rfl | rfl | rfl | rfl | rfl | rfl | rfl | rfl <;> decide

/-- Membership gives a positive containment test. -/
theorem containsChar_of_mem {cs : List Char} {c : Char} (h : c ∈ cs) :
    containsChar cs c = true := by
  simp only [containsChar, List.any_eq_true]
  exact ⟨c, h, by simp⟩

/-- Evaluation of one scanner attempt on a label of the shape digits, dot,
digits, unit letter. -/
theorem tryMatchNum_eval (unit : Char) (ds fs : List Char)
    (hds : ∀ c ∈ ds, Char.isDigit c = true) (hfs : ∀ c ∈ fs, Char.isDigit c = true)
    (hne : ds ≠ []) (hu1 : Char.isDigit unit = false)
    (hu2 : Char.isWhitespace unit = false) :
    tryMatchNum unit (ds ++ '.' :: (fs ++ [unit]))
      = some (digitsToNat (ds ++ fs), fs.length) := by
  obtain ⟨d, ds', rfl⟩ := List.exists_cons_of_ne_nil hne
  have h1 := takeWhile_all_append Char.isDigit (d :: ds') '.' (fs ++ [unit]) hds (by decide)
  have h2 := takeWhile_all_append Char.isDigit fs unit [] hfs hu1
  simp only [tryMatchNum, h1.1, h1.2, h2.1, h2.2, List.isEmpty_cons, List.head?_cons,
    List.drop_one, List.tail_cons, List.dropWhile_cons, hu2]
  simp [List.dropWhile_cons, hu2]

/-- Evaluation of the scanner on the whole label: the leftmost match starts
at position 0. -/
theorem findNumUnit_eval (unit : Char) (ds fs : List Char)
    (hds : ∀ c ∈ ds, Char.isDigit c = true) (hfs : ∀ c ∈ fs, Char.isDigit c = true)
    (hne : ds ≠ []) (hu1 : Char.isDigit unit = false)
    (hu2 : Char.isWhitespace unit = false) :
    findNumUnit unit (ds ++ '.' :: (fs ++ [unit]))
      = some (digitsToNat (ds ++ fs), fs.length) := by
  have hm := tryMatchNum_eval unit ds fs hds hfs hne hu1 hu2
  obtain ⟨d, ds', rfl⟩ := List.exists_cons_of_ne_nil hne
  rw [List.cons_append] at hm ⊢
  rw [findNumUnit, hm]

/-! ## Sub-thread traversal lemmas -/

/-- The per-item replies loop restores the session identifier set around
every extraction: the threaded set comes back unchanged. -/
theorem repliesProcessItems_ids (parent : String) (mr : Nat) :
    ∀ (items : List TweetElem) (temp : Finset TweetId) (acc : List (TweetData × String))
      (ids : Finset TweetId),
      (repliesProcessItems parent mr items temp acc ids).2.2 = ids := by
  intro items
  induction items with
  | nil => intro temp acc ids; rfl
  | cons e rest ih =>
    intro temp acc ids
    simp only [repliesProcessItems]
    split
    · rfl
    · split
      · exact ih _ _ _
      · split
        · exact ih _ _ _
        · split
          · exact ih _ _ _
          · exact ih _ _ _

/-- Same for the quotes loop. -/
theorem quotesProcessItems_ids (parent : String) (mq : Nat) :
    ∀ (items : List TweetElem) (temp : Finset TweetId) (acc : List (TweetData × String))
      (ids : Finset TweetId),
      (quotesProcessItems parent mq items temp acc ids).2.2 = ids := by
  intro items
  induction items with
  | nil => intro temp acc ids; rfl
  | cons e rest ih =>
    intro temp acc ids
    simp only [quotesProcessItems]
    split
    · rfl
    · split
      · exact ih _ _ _
      · split
        · exact ih _ _ _
        · split
          · exact ih _ _ _
          · exact ih _ _ _

/-- Every reply the per-item loop appends is annotated with the parent URL
and its identifier differs from the parent URL (the guard skips the
original tweet). -/
theorem repliesProcessItems_ann (parent : String) (mr : Nat) :
    ∀ (items : List TweetElem) (temp : Finset TweetId) (acc : List (TweetData × String))
      (ids : Finset TweetId),
      (∀ p ∈ acc, p.2 = parent ∧ p.1.tweet_url ≠ some parent) →
      ∀ p ∈ (repliesProcessItems parent mr items temp acc ids).2.1,
        p.2 = parent ∧ p.1.tweet_url ≠ some parent := by
  intro items
  induction items with
  | nil => intro temp acc ids h; exact h
  | cons e rest ih =>
    intro temp acc ids h
    simp only [repliesProcessItems]
    split
    · exact h
    · split
      · exact ih _ _ _ h
      · rename_i ti hti
        split
        · exact ih _ _ _ h
        · rename_i hguard
          split
          · rename_i r hr
            refine ih _ _ _ ?_
            intro p hp
            rcases List.mem_append.1 hp with hp | hp
            · exact h p hp
            · simp only [List.mem_singleton] at hp
              subst hp
              refine ⟨rfl, ?_⟩
              have hurl : r.tweet_url = ti.href := extract_url_eq hti hr
              rw [hurl]
              intro hc
              exact hguard (Or.inl hc)
          · exact ih _ _ _ h

/-- Every quote record the per-item loop appends is annotated with the
parent URL (there is no guard against the parent itself here). -/
theorem quotesProcessItems_ann (parent : String) (mq : Nat) :
    ∀ (items : List TweetElem) (temp : Finset TweetId) (acc : List (TweetData × String))
      (ids : Finset TweetId),
      (∀ p ∈ acc, p.2 = parent) →
      ∀ p ∈ (quotesProcessItems parent mq items temp acc ids).2.1, p.2 = parent := by
  intro items
  induction items with
  | nil => intro temp acc ids h; exact h
  | cons e rest ih =>
    intro temp acc ids h
    simp only [quotesProcessItems]
    split
    · exact h
    · split
      · exact ih _ _ _ h
      · split
        · exact ih _ _ _ h
        · split
          · refine ih _ _ _ ?_
            intro p hp
            rcases List.mem_append.1 hp with hp | hp
            · exact h p hp
            · simp only [List.mem_singleton] at hp
              subst hp
              rfl
          · exact ih _ _ _ h

/-- The replies while loop returns the session identifier set unchanged. -/
theorem repliesLoopAux_ids (surface : Nat → List TweetElem) (parent : String)
    (mr ms : Nat) :
    ∀ (fuel noNew last : Nat) (temp : Finset TweetId) (acc : List (TweetData × String))
      (ids : Finset TweetId),
      (repliesLoopAux surface parent mr ms fuel noNew last temp acc ids).2 = ids := by
  intro fuel
  induction fuel with
  | zero => intro noNew last temp acc ids; rfl
  | succ fuel ih =>
    intro noNew last temp acc ids
    simp only [repliesLoopAux]
    split
    · split
      · split
        · exact repliesProcessItems_ids parent mr _ temp acc ids
        · rw [ih]
          exact repliesProcessItems_ids parent mr _ temp acc ids
      · rw [if_neg (by norm_num : ¬ (3:Nat) ≤ 0)]
        rw [ih]
        exact repliesProcessItems_ids parent mr _ temp acc ids
    · rfl

/-- The quotes while loop returns the session identifier set unchanged. -/
theorem quotesLoopAux_ids (surface : Nat → List TweetElem) (parent : String)
    (mq ms : Nat) :
    ∀ (fuel noNew last : Nat) (temp : Finset TweetId) (acc : List (TweetData × String))
      (ids : Finset TweetId),
      (quotesLoopAux surface parent mq ms fuel noNew last temp acc ids).2 = ids := by
  intro fuel
  induction fuel with
  | zero => intro noNew last temp acc ids; rfl
  | succ fuel ih =>
    intro noNew last temp acc ids
    simp only [quotesLoopAux]
    split
    · split
      · split
        · exact quotesProcessItems_ids parent mq _ temp acc ids
        · rw [ih]
          exact quotesProcessItems_ids parent mq _ temp acc ids
      · rw [if_neg (by norm_num : ¬ (3:Nat) ≤ 0)]
        rw [ih]
        exact quotesProcessItems_ids parent mq _ temp acc ids
    · rfl

/-- The replies while loop only returns annotated, parent-distinct
records. -/
theorem repliesLoopAux_ann (surface : Nat → List TweetElem) (parent : String)
    (mr ms : Nat) :
    ∀ (fuel noNew last : Nat) (temp : Finset TweetId) (acc : List (TweetData × String))
      (ids : Finset TweetId),
      (∀ p ∈ acc, p.2 = parent ∧ p.1.tweet_url ≠ some parent) →
      ∀ p ∈ (repliesLoopAux surface parent mr ms fuel noNew last temp acc ids).1,
        p.2 = parent ∧ p.1.tweet_url ≠ some parent := by
  intro fuel
  induction fuel with
  | zero => intro noNew last temp acc ids h; exact h
  | succ fuel ih =>
    intro noNew last temp acc ids h
    have hacc := repliesProcessItems_ann parent mr (surface (ms - (fuel + 1))) temp acc ids h
    simp only [repliesLoopAux]
    split
    · split
      · split
        · exact hacc
        · exact ih _ _ _ _ _ hacc
      · rw [if_neg (by norm_num : ¬ (3:Nat) ≤ 0)]
        exact ih _ _ _ _ _ hacc
    · exact h

/-- The quotes while loop only returns annotated records. -/
theorem quotesLoopAux_ann (surface : Nat → List TweetElem) (parent : String)
    (mq ms : Nat) :
    ∀ (fuel noNew last : Nat) (temp : Finset TweetId) (acc : List (TweetData × String))
      (ids : Finset TweetId),
      (∀ p ∈ acc, p.2 = parent) →
      ∀ p ∈ (quotesLoopAux surface parent mq ms fuel noNew last temp acc ids).1,
        p.2 = parent := by
  intro fuel
  induction fuel with
  | zero => intro noNew last temp acc ids h; exact h
  | succ fuel ih =>
    intro noNew last temp acc ids h
    have hacc := quotesProcessItems_ann parent mq (surface (ms - (fuel + 1))) temp acc ids h
    simp only [quotesLoopAux]
    split
    · split
      · split
        · exact hacc
        · exact ih _ _ _ _ _ hacc
      · rw [if_neg (by norm_num : ¬ (3:Nat) ≤ 0)]
        exact ih _ _ _ _ _ hacc
    · exact h

/-! ## Further loop lemmas used by the claims -/

/-- One-step unfolding of the collector loop. -/
theorem collectLoopAux_succ (surface : Nat → List TweetElem) (mt ms : Nat)
    (f : Option String) (fuel noNew last : Nat) (st : ScraperState) :
    collectLoopAux surface mt ms f (fuel + 1) noNew last st =
      if st.collected_tweets_data.length < mt then
        (fun st2 =>
          (fun noNew2 =>
            if 3 ≤ noNew2 then (st2, Outcome.exhaustedFeed)
            else collectLoopAux surface mt ms f fuel noNew2
              st2.collected_tweets_data.length st2)
          (if st2.collected_tweets_data.length = last then noNew + 1 else 0))
        (processItems mt f st (surface (ms - (fuel + 1))))
      else (st, Outcome.targetReached) := rfl

/-- A stalled pass (no change in list length) below the stall limit steps
the loop to the next pass with the stall counter incremented. -/
theorem collectLoopAux_stall_step (surface : Nat → List TweetElem) (mt ms : Nat)
    (f : Option String) (fuel noNew last : Nat) (st st2 : ScraperState)
    (hlen : st.collected_tweets_data.length < mt)
    (hp : processItems mt f st (surface (ms - (fuel + 1))) = st2)
    (hstall : st2.collected_tweets_data.length = last)
    (hlt : noNew + 1 < 3) :
    collectLoopAux surface mt ms f (fuel + 1) noNew last st
      = collectLoopAux surface mt ms f fuel (noNew + 1) last st2 := by
  rw [collectLoopAux_succ, if_pos hlen, hp]
  simp only [hstall, eq_self_iff_true, if_true]
  rw [if_neg (by omega)]

/-- A stalled pass that reaches the stall limit exits the loop through the
early break. -/
theorem collectLoopAux_stall_break (surface : Nat → List TweetElem) (mt ms : Nat)
    (f : Option String) (fuel noNew last : Nat) (st st2 : ScraperState)
    (hlen : st.collected_tweets_data.length < mt)
    (hp : processItems mt f st (surface (ms - (fuel + 1))) = st2)
    (hstall : st2.collected_tweets_data.length = last)
    (hge : 3 ≤ noNew + 1) :
    collectLoopAux surface mt ms f (fuel + 1) noNew last st
      = (st2, Outcome.exhaustedFeed) := by
  rw [collectLoopAux_succ, if_pos hlen, hp]
  simp only [hstall, eq_self_iff_true, if_true]
  rw [if_pos hge]

/-- A pass that does not change the list length does not change the list at
all (records are only ever appended). -/
theorem processItems_data_eq_of_len (mt : Nat) (f : Option String)
    (items : List TweetElem) (st : ScraperState)
    (h : (processItems mt f st items).collected_tweets_data.length
      = st.collected_tweets_data.length) :
    (processItems mt f st items).collected_tweets_data = st.collected_tweets_data := by
  obtain ⟨l, hl⟩ := processItems_data_prefix mt f items st
  rw [hl] at h ⊢
  rw [List.length_append] at h
  have hl0 : l = [] := List.length_eq_zero.1 (by omega)
  simp [hl0]

/-! ## The claims -/

/-- C1: for every sequence of extraction passes of a collection session the
returned record list never contains two records with the same identifier
(tweet URL); in particular, on the overlap surface where pass 1 shows items
A and B and pass 2 shows B and C, the collected identifier sequence is
exactly A, B, C and the captured identifier set is exactly the three of
them — B is not collected twice. -/
theorem c1_no_duplicate_identifiers :
    (∀ (surface : Nat → List TweetElem) (maxTweets maxScrolls : Nat)
        (filterUsername : Option String),
      (((smart_scroll_and_collect surface maxTweets maxScrolls filterUsername
          emptyState).1).collected_tweets_data.map (fun d => d.tweet_url)).Nodup)
  ∧ (((smart_scroll_and_collect overlapSurface 10 10 none
        emptyState).1).collected_tweets_data.map (fun d => d.tweet_url))
      = [some "A", some "B", some "C"]
  ∧ ((smart_scroll_and_collect overlapSurface 10 10 none
        emptyState).1).collected_tweet_ids = {some "A", some "B", some "C"} := by
  refine ⟨?_, by decide, by decide⟩
  intro surface mt ms f
  exact (collectLoopAux_nodup surface mt ms f ms 0 0 emptyState
    (by simp [emptyState])).1

/-- C2: a session started from the reset state returns at most target_count
records, and at most passes times the per-pass visibility bound. -/
theorem c2_size_bounds (surface : Nat → List TweetElem) (maxTweets maxScrolls : Nat)
    (filterUsername : Option String) :
    ((smart_scroll_and_collect surface maxTweets maxScrolls filterUsername
        emptyState).1).collected_tweets_data.length ≤ maxTweets
  ∧ ∀ B : Nat, (∀ i, (surface i).length ≤ B) →
      ((smart_scroll_and_collect surface maxTweets maxScrolls filterUsername
          emptyState).1).collected_tweets_data.length ≤ maxScrolls * B := by
  constructor
  · exact collectLoopAux_len_le surface maxTweets maxScrolls filterUsername
      maxScrolls 0 0 emptyState (by simp [emptyState])
  · intro B hB
    have := collectLoopAux_len_bound surface maxTweets maxScrolls filterUsername B hB
      maxScrolls 0 0 emptyState
    simpa [emptyState] using this

/-- Witness for C2 at a concrete surface showing one card per pass. -/
theorem c2_size_bounds_witness :
    ((smart_scroll_and_collect noTimeSurface 5 3 none
        emptyState).1).collected_tweets_data.length ≤ 5
  ∧ ((smart_scroll_and_collect noTimeSurface 5 3 none
        emptyState).1).collected_tweets_data.length ≤ 3 * 1 :=
  ⟨(c2_size_bounds noTimeSurface 5 3 none).1,
   (c2_size_bounds noTimeSurface 5 3 none).2 1 (fun i => by simp [noTimeSurface])⟩

/-- C3: three consecutive passes that each add zero new records terminate
the session through the stall break (the ExhaustedFeed exit), returning
exactly the records collected before stalling, even though the target was
never reached.  The hypotheses describe the three stalled passes; a pass
whose items are all identifier-less (extraction returns none for each)
satisfies them, so such items never appear in the output and never reset
the stall counter. -/
theorem c3_stall_exhausts (surface : Nat → List TweetElem) (maxTweets maxScrolls : Nat)
    (filterUsername : Option String) (k : Nat) (st st1 st2 st3 : ScraperState)
    (hlen : st.collected_tweets_data.length < maxTweets)
    (h1 : processItems maxTweets filterUsername st
      (surface (maxScrolls - (k + 3))) = st1)
    (h2 : processItems maxTweets filterUsername st1
      (surface (maxScrolls - (k + 2))) = st2)
    (h3 : processItems maxTweets filterUsername st2
      (surface (maxScrolls - (k + 1))) = st3)
    (e1 : st1.collected_tweets_data.length = st.collected_tweets_data.length)
    (e2 : st2.collected_tweets_data.length = st.collected_tweets_data.length)
    (e3 : st3.collected_tweets_data.length = st.collected_tweets_data.length) :
    collectLoopAux surface maxTweets maxScrolls filterUsername (k + 3) 0
        st.collected_tweets_data.length st = (st3, Outcome.exhaustedFeed)
  ∧ st3.collected_tweets_data = st.collected_tweets_data := by
  have hd1 : st1.collected_tweets_data = st.collected_tweets_data := by
    rw [← h1]
    exact processItems_data_eq_of_len _ _ _ _ (by rw [h1]; exact e1)
  have hd2 : st2.collected_tweets_data = st1.collected_tweets_data := by
    rw [← h2]
    refine processItems_data_eq_of_len _ _ _ _ ?_
    rw [h2, e2, ← e1]
  have hd3 : st3.collected_tweets_data = st2.collected_tweets_data := by
    rw [← h3]
    refine processItems_data_eq_of_len _ _ _ _ ?_
    rw [h3, e3, ← e2]
  refine ⟨?_, hd3.trans (hd2.trans hd1)⟩
  have hlen1 : st1.collected_tweets_data.length < maxTweets := by rw [e1]; exact hlen
  have hlen2 : st2.collected_tweets_data.length < maxTweets := by rw [e2]; exact hlen
  calc collectLoopAux surface maxTweets maxScrolls filterUsername (k + 3) 0
        st.collected_tweets_data.length st
      = collectLoopAux surface maxTweets maxScrolls filterUsername (k + 2) 1
          st.collected_tweets_data.length st1 :=
        collectLoopAux_stall_step surface maxTweets maxScrolls filterUsername
          (k + 2) 0 st.collected_tweets_data.length st st1 hlen h1 e1 (by omega)
    _ = collectLoopAux surface maxTweets maxScrolls filterUsername (k + 1) 2
          st.collected_tweets_data.length st2 :=
        collectLoopAux_stall_step surface maxTweets maxScrolls filterUsername
          (k + 1) 1 st.collected_tweets_data.length st1 st2 hlen1 h2 e2 (by omega)
    _ = (st3, Outcome.exhaustedFeed) :=
        collectLoopAux_stall_break surface maxTweets maxScrolls filterUsername
          k 2 st.collected_tweets_data.length st2 st3 hlen2 h3 e3 (by omega)

/-- Witness for C3: a session whose surface keeps rendering one
identifier-less card stalls for three passes and exits with ExhaustedFeed
and nothing collected. -/
theorem c3_stall_exhausts_witness :
    collectLoopAux noTimeSurface 5 3 none 3 0 0 emptyState
      = (emptyState, Outcome.exhaustedFeed)
  ∧ emptyState.collected_tweets_data = emptyState.collected_tweets_data :=
  c3_stall_exhausts noTimeSurface 5 3 none 0 emptyState emptyState emptyState emptyState
    (by decide) (by decide) (by decide) (by decide) rfl rfl rfl

/-- C4: with the pass limit at zero the loop condition fails before any
pass, the session hands back its (reset, hence empty) record list through
the PassLimitReached exit, and that exit is distinct from the ExhaustedFeed
stall exit; both exits carry the session state. -/
theorem c4_zero_pass_limit :
    (∀ (surface : Nat → List TweetElem) (maxTweets : Nat) (f : Option String)
        (st : ScraperState),
      smart_scroll_and_collect surface maxTweets 0 f st = (st, Outcome.passLimitReached))
  ∧ ((smart_scroll_and_collect noTimeSurface 5 0 none
        emptyState).1).collected_tweets_data = []
  ∧ Outcome.exhaustedFeed ≠ Outcome.passLimitReached := by
  exact ⟨fun _ _ _ _ => rfl, rfl, by decide⟩

/-- C5: engagement labels carrying a K or M unit parse to the mantissa
times 1000 resp. 1000000 (exactly, on the decimal reading of the label);
the spec's examples evaluate accordingly and unparseable or missing labels
give 0. -/
theorem c5_engagement_parsing :
    (∀ ds fs : List Char, ds ≠ [] →
      (∀ c ∈ ds, c ∈ decimalDigits) → (∀ c ∈ fs, c ∈ decimalDigits) →
      get_count (some ⟨ds ++ '.' :: (fs ++ ['k'])⟩)
        = digitsToNat (ds ++ fs) * 1000 / 10 ^ fs.length)
  ∧ get_count (some "1.2K") = 1200
  ∧ get_count (some "3M") = 3000000
  ∧ get_count (some "842") = 842
  ∧ get_count (some "") = 0
  ∧ get_count (some "likes") = 0
  ∧ get_count none = 0 := by
  refine ⟨?_, by decide, by decide, by decide, by decide, by decide, rfl⟩
  intro ds fs hne hds hfs
  have hdsD : ∀ c ∈ ds, Char.isDigit c = true :=
    fun c hc => isDigit_of_mem_decimalDigits (hds c hc)
  have hfsD : ∀ c ∈ fs, Char.isDigit c = true :=
    fun c hc => isDigit_of_mem_decimalDigits (hfs c hc)
  have hlowmap : (ds ++ '.' :: (fs ++ ['k'])).map lowerChar
      = ds ++ '.' :: (fs ++ ['k']) := by
    apply list_map_self
    intro a ha
    rcases List.mem_append.1 ha with ha | ha
    · exact lowerChar_of_mem_decimalDigits (hds a ha)
    · rcases List.mem_cons.1 ha with rfl | ha
      · decide
      · rcases List.mem_append.1 ha with ha | ha
        · exact lowerChar_of_mem_decimalDigits (hfs a ha)
        · simp only [List.mem_singleton] at ha
          subst ha
          decide
  have hfind := findNumUnit_eval 'k' ds fs hdsD hfsD hne (by decide) (by decide)
  have hcont : containsChar (ds ++ '.' :: (fs ++ ['k'])) 'k' = true :=
    containsChar_of_mem (by simp)
  have hne2 : (⟨ds ++ '.' :: (fs ++ ['k'])⟩ : String) ≠ "" := by
    intro hh
    have hdata : ds ++ '.' :: (fs ++ ['k']) = [] := congrArg String.data hh
    simp at hdata
  have hpl : (pyLower ⟨ds ++ '.' :: (fs ++ ['k'])⟩).data
      = ds ++ '.' :: (fs ++ ['k']) := hlowmap
  simp only [get_count]
  rw [if_neg hne2]
  simp only [parseCountLabel, hpl, hcont, if_true, hfind]

/-- Witness for C5: the mantissa 4.25 with the K unit parses to 4250. -/
theorem c5_engagement_parsing_witness :
    get_count (some ⟨['4'] ++ '.' :: (['2', '5'] ++ ['k'])⟩)
      = digitsToNat (['4'] ++ ['2', '5']) * 1000 / 10 ^ (['2', '5'] : List Char).length :=
  c5_engagement_parsing.1 ['4'] ['2', '5'] (by decide) (by decide) (by decide)

/-- C6 (amended): extraction returns none exactly when the time element is
missing or the permalink is already in collected_tweet_ids; for a present
time element with a fresh permalink the record is produced, its identifier
is that permalink, and each missing remaining field falls back to its
default (empty text, zero counts). -/
theorem c6_extraction_amended (ids : Finset TweetId) (e : TweetElem) :
    ((extract_single_tweet ids e).2 = none ↔
      e.timeInfo = none ∨ ∃ ti, e.timeInfo = some ti ∧ ti.href ∈ ids)
  ∧ ∀ ti, e.timeInfo = some ti → ti.href ∉ ids →
      ∃ r, (extract_single_tweet ids e).2 = some r ∧ r.tweet_url = ti.href ∧
        (e.tweetText = none → r.content = "") ∧
        (e.replyLabel = none → r.reply_count = 0) ∧
        (e.retweetLabel = none → r.retweet_count = 0) ∧
        (e.likeLabel = none → r.like_count = 0) ∧
        (e.viewLabel = none → r.view_count = 0) := by
  constructor
  · constructor
    · intro h
      rcases he : e.timeInfo with _ | ti
      · exact Or.inl rfl
      · by_cases hm : ti.href ∈ ids
        · exact Or.inr ⟨ti, rfl, hm⟩
        · rw [extract_not_mem he hm] at h
          simp at h
    · intro h
      rcases h with h | ⟨ti, hti, hmem⟩
      · simp [extract_single_tweet, h]
      · simp [extract_single_tweet, hti, hmem]
  · intro ti hti hm
    rw [extract_not_mem hti hm]
    refine ⟨_, rfl, rfl, ?_, ?_, ?_, ?_, ?_⟩
    · intro h; rw [h]; rfl
    · intro h; rw [h]; rfl
    · intro h; rw [h]; rfl
    · intro h; rw [h]; rfl
    · intro h; rw [h]; rfl

/-- Counterexample to C6 as stated: on a card whose permalink u is already
in the captured set, extraction returns none even though the identifier is
present and obtainable — so none is not returned exactly when the
identifier cannot be obtained. -/
theorem c6_counterexample :
    (extract_single_tweet {some "u"} dupCard).2 = none
  ∧ dupCard.timeInfo ≠ none := by decide

/-- Witness for C6 on a fresh card against the empty set. -/
theorem c6_extraction_amended_witness :
    (extract_single_tweet (∅ : Finset TweetId) freshCard).2 = none ↔
      freshCard.timeInfo = none ∨
        ∃ ti, freshCard.timeInfo = some ti ∧ ti.href ∈ (∅ : Finset TweetId) :=
  (c6_extraction_amended ∅ freshCard).1

/-- C7 (amended): every pass preserves distinctness of the captured
identifiers and their membership in the captured set; with no filter
predicate it also preserves equality of list length and set size, while
with an arbitrary filter predicate only list length at most set size is
preserved (a rejected record's identifier still enters the set). -/
theorem c7_invariants_amended :
    (∀ (maxTweets : Nat) (st : ScraperState) (items : List TweetElem),
      ((st.collected_tweets_data.map (fun d => d.tweet_url)).Nodup ∧
        (∀ d ∈ st.collected_tweets_data, d.tweet_url ∈ st.collected_tweet_ids) ∧
        st.collected_tweets_data.length = st.collected_tweet_ids.card) →
      (((processItems maxTweets none st items).collected_tweets_data.map
          (fun d => d.tweet_url)).Nodup ∧
        (∀ d ∈ (processItems maxTweets none st items).collected_tweets_data,
          d.tweet_url ∈ (processItems maxTweets none st items).collected_tweet_ids) ∧
        (processItems maxTweets none st items).collected_tweets_data.length
          = (processItems maxTweets none st items).collected_tweet_ids.card))
  ∧ (∀ (maxTweets : Nat) (filterUsername : Option String) (st : ScraperState)
        (items : List TweetElem),
      st.collected_tweets_data.length ≤ st.collected_tweet_ids.card →
      (processItems maxTweets filterUsername st items).collected_tweets_data.length
        ≤ (processItems maxTweets filterUsername st items).collected_tweet_ids.card) := by
  constructor
  · intro mt st items h
    obtain ⟨h1, h2, h3⟩ := h
    have hn := processItems_nodup mt none items st ⟨h1, h2⟩
    exact ⟨hn.1, hn.2, processItems_card_eq mt items st h3⟩
  · intro mt f st items h
    exact processItems_len_le_card mt f items st h

/-- Counterexample to C7 as stated: a filtered session (filter alice) whose
only visible card is by bob ends its first pass with one identifier in the
captured set but zero records in the list — list length differs from set
size. -/
theorem c7_counterexample :
    ((smart_scroll_and_collect bobSurface 10 1 (some "alice")
        emptyState).1).collected_tweet_ids.card = 1
  ∧ ((smart_scroll_and_collect bobSurface 10 1 (some "alice")
        emptyState).1).collected_tweets_data.length = 0 := by decide

/-- Witness for C7 on the filtered bob pass: the inequality direction does
hold there. -/
theorem c7_invariants_amended_witness :
    (processItems 5 (some "alice") emptyState [bobCard]).collected_tweets_data.length
      ≤ (processItems 5 (some "alice") emptyState [bobCard]).collected_tweet_ids.card :=
  c7_invariants_amended.2 5 (some "alice") emptyState [bobCard] (by decide)

/-- C8 (amended): navigation failure and an unbypassable login wall abort
scrape_by_username with an empty result; but they are not the only aborting
outcomes — an exception during any collection pass propagates out of the
collector into the catch-all handler, which also returns the empty result
and discards the partial records, rather than counting the failed pass as
an empty stall-contributing pass; only an error-free collection returns the
collected records. -/
theorem c8_abort_amended (s : ProfileSurface) (username : String)
    (maxTweets maxScrolls : Nat) :
    (s.navFails = true → scrape_by_username s true true username maxTweets maxScrolls = [])
  ∧ (s.navFails = false → s.loginWall = true → s.loginWallAfterRefresh = true →
      scrape_by_username s true true username maxTweets maxScrolls = [])
  ∧ (s.navFails = false → s.loginWall = false →
      collectLoopAuxE s.passes maxTweets maxScrolls (some (stripAtSigns username))
          maxScrolls 0 0 emptyState = Except.error () →
      scrape_by_username s true true username maxTweets maxScrolls = [])
  ∧ (∀ (st : ScraperState) (o : Outcome),
      s.navFails = false → s.loginWall = false →
      collectLoopAuxE s.passes maxTweets maxScrolls (some (stripAtSigns username))
          maxScrolls 0 0 emptyState = Except.ok (st, o) →
      scrape_by_username s true true username maxTweets maxScrolls
        = st.collected_tweets_data) := by
  refine ⟨?_, ?_, ?_, ?_⟩
  · intro h
    simp [scrape_by_username, h]
  · intro h1 h2 h3
    simp [scrape_by_username, h1, h2, h3]
  · intro h1 h2 herr
    simp [scrape_by_username, h1, h2, collectOrEmpty, herr]
  · intro st o h1 h2 hok
    simp [scrape_by_username, h1, h2, collectOrEmpty, hok]

/-- Counterexample to C8 as stated: the surface is reachable (no navigation
failure, no wall) and pass 0 collects a record, but a transient error on
pass 1 makes the whole scrape return the empty result — the partial record
is discarded instead of the failed pass being treated as an empty
stall-counted pass, as the run with the error replaced by an empty pass
shows. -/
theorem c8_counterexample :
    scrape_by_username errProfile true true "user" 10 5 = []
  ∧ scrape_by_username okProfile true true "user" 10 5 = [userRecord] := by decide

/-- Witness for C8: a failed navigation yields the empty result. -/
theorem c8_abort_amended_witness :
    scrape_by_username navFailProfile true true "u" 5 5 = [] :=
  (c8_abort_amended navFailProfile "u" 5 5).1 rfl

/-- C9 (amended): every record returned by sub-thread traversal is
annotated with the parent identifier; the replies traversal moreover never
returns a record whose identifier equals the parent tweet URL, but the
quotes traversal has no such parent guard (see the counterexample). -/
theorem c9_subthread_amended (surface : Nat → List TweetElem) (tweetUrl : String)
    (maxItems maxScrolls : Nat) (ids : Finset TweetId) :
    (∀ p ∈ (scrape_tweet_replies surface tweetUrl maxItems maxScrolls ids).1,
        p.2 = tweetUrl ∧ p.1.tweet_url ≠ some tweetUrl)
  ∧ (∀ p ∈ (scrape_tweet_quotes surface tweetUrl maxItems maxScrolls ids).1,
        p.2 = tweetUrl) := by
  constructor
  · exact repliesLoopAux_ann surface tweetUrl maxItems maxScrolls maxScrolls 0 0 ∅ [] ids
      (by simp)
  · exact quotesLoopAux_ann surface tweetUrl maxItems maxScrolls maxScrolls 0 0 ∅ [] ids
      (by simp)

/-- Counterexample to C9 as stated: a quotes page that renders the parent
item itself yields a quote record whose identifier equals the parent tweet
URL — the quotes loop lacks the parent check the replies loop has. -/
theorem c9_counterexample :
    ((scrape_tweet_quotes parentSurface "P" 10 5 ∅).1.map (fun p => p.1.tweet_url))
      = [some "P"] := by decide

/-- Witness for C9 on a replies page with one genuine reply. -/
theorem c9_subthread_amended_witness :
    (replyRecord, "P").2 = "P" ∧ (replyRecord, "P").1.tweet_url ≠ some "P" :=
  (c9_subthread_amended replySurface "P" 10 5 ∅).1 (replyRecord, "P") (by decide)

/-- C10: sub-thread traversal restores the session's captured identifier
set: after scrape_tweet_replies or scrape_tweet_quotes returns, the
threaded collected_tweet_ids equals its value before the call (the loops
copy it, hand an empty set to each extraction, and put the copy back). -/
theorem c10_frame_ids (surface : Nat → List TweetElem) (tweetUrl : String)
    (maxItems maxScrolls : Nat) (ids : Finset TweetId) :
    (scrape_tweet_replies surface tweetUrl maxItems maxScrolls ids).2 = ids
  ∧ (scrape_tweet_quotes surface tweetUrl maxItems maxScrolls ids).2 = ids :=
  ⟨repliesLoopAux_ids surface tweetUrl maxItems maxScrolls maxScrolls 0 0 ∅ [] ids,
   quotesLoopAux_ids surface tweetUrl maxItems maxScrolls maxScrolls 0 0 ∅ [] ids⟩
